import Mathlib

/-!
Verification of the `createServerStore` engine of the rsc-state repository
(implementation in `src/src/types.d.ts`, lines 640-1213): scope resolution,
the derive/memoize cache, the middleware/adapter pipeline, and the batching
semantics.  State values are modelled by an abstract type `σ` whose equality
stands for JavaScript reference identity (`===`); derived values by `δ`.
Thrown JavaScript values are modelled by `Thrown`; `await`-sequencing of the
middleware pipeline and adapter calls is modelled by `Except` sequencing.
Observable calls (derive invocations, `onError`/lifecycle callbacks, adapter
writes, cache invalidation, the state-commit assignment and the pipeline run)
are recorded in an event trace, mirroring the call counters the repository's
own test-suite instruments the store with.
-/

namespace RscState

/-- Operation kinds, mirroring `OperationType` of the source
(`"initialize" | "update" | "set" | "patch" | "reset" | "batch"`). -/
inductive OperationType : Type where
  | init
  | update
  | set
  | patch
  | reset
  | batch
deriving DecidableEq

/-- Storage mode, mirroring `StorageMode = "request" | "persistent"`. -/
inductive StorageMode : Type where
  | request
  | persistent
deriving DecidableEq

/-- A JavaScript `Error` object, kept abstract as its message. -/
structure JsError : Type where
  message : String
deriving DecidableEq

/-- A thrown JavaScript value: either an `Error` instance or any other value
(kept abstract as its `String(...)` rendering). -/
inductive Thrown : Type where
  | errorObj (e : JsError)
  | nonError (str : String)
deriving DecidableEq

/-- `thrownError instanceof Error ? thrownError : new Error(String(thrownError))`
from `computeDerivedState`'s catch block. -/
def normalizeThrown : Thrown → JsError
  | Thrown.errorObj e => e
  | Thrown.nonError s => ⟨s⟩

/-- The operation descriptor handed to every middleware stage:
`{ type, previousState, nextState }`. -/
structure MwOp (σ : Type) : Type where
  type : OperationType
  previousState : σ
  nextState : σ
deriving DecidableEq

/-- The `CacheInstance` record of the source: current base state, the
`initialized` flag, and the two derived-cache bookkeeping fields. -/
structure Record (σ δ : Type) : Type where
  state : σ
  initialized : Bool
  lastDerivedBaseState : Option σ
  cachedDerivedState : Option δ
deriving DecidableEq

/-- A storage adapter: `read()` yields the stored state or `null` (or throws),
`write(state)` acknowledges or throws. -/
structure Adapter (σ : Type) : Type where
  read : Except Thrown (Option σ)
  write : σ → Except Thrown Unit

/-- The store configuration.  Middleware stages and the derive function may
throw (`Except.error`).  The lifecycle callbacks are modelled by whether they
are configured; their invocations are recorded in the event trace. -/
structure StoreConfig (σ δ : Type) : Type where
  storage : StorageMode
  initial : σ
  derive : Option (σ → Except Thrown δ)
  middleware : List (MwOp σ → Except Thrown σ)
  adapter : Option (Adapter σ)
  onErrorConfigured : Bool
  onInitializeConfigured : Bool
  onUpdateConfigured : Bool
  onResetConfigured : Bool

/-- Observable events of one store operation, in execution order. -/
inductive Event (σ : Type) : Type where
  | pipelineRun (type : OperationType) (previousState nextState : σ)
  | mwStage (op : MwOp σ)
  | deriveCall (baseState : σ)
  | onError (e : JsError) (method : String) (state : σ)
  | commitState (state : σ)
  | invalidate
  | adapterWrite (state : σ)
  | onInitialize (state : σ)
  | onUpdate (previousState nextState : σ)
  | onReset
deriving DecidableEq

/-- The name of the store method reported to `onError` by the derive catch
block: `{ method: "derive", state: baseState }`. -/
def deriveMethodName : String := "derive"

/-- The value `read`/`select` return: the base state together with the derived
portion merged onto it (`none` when no derived keys are present). -/
structure FullState (σ δ : Type) : Type where
  base : σ
  derived : Option δ
deriving DecidableEq

variable {σ δ : Type}

/-- The `for (const middlewareFunction of configuration.middleware)` loop of
`applyMiddleware`: each stage receives `{type, previousState, nextState}`
where `nextState` is the running value, and its (awaited) result becomes the
running value for the next stage.  A throw aborts the loop. -/
def runStages (t : OperationType) (previousState : σ)
    (stages : List (MwOp σ → Except Thrown σ)) (current : σ) :
    List (Event σ) × Except Thrown σ :=
  match stages with
  | [] => ([], Except.ok current)
  | stage :: rest =>
    match stage ⟨t, previousState, current⟩ with
    | Except.ok next =>
      let res := runStages t previousState rest next
      (Event.mwStage ⟨t, previousState, current⟩ :: res.1, res.2)
    | Except.error e => ([Event.mwStage ⟨t, previousState, current⟩], Except.error e)

/-- `applyMiddleware(operationType, previousState, nextState)`.  With an empty
middleware list the source returns `nextState` unchanged, which coincides with
the empty fold.  The `pipelineRun` event records that the pipeline ran once
with these arguments. -/
def applyMiddleware (cfg : StoreConfig σ δ) (t : OperationType)
    (previousState nextState : σ) : List (Event σ) × Except Thrown σ :=
  let res := runStages t previousState cfg.middleware nextState
  (Event.pipelineRun t previousState nextState :: res.1, res.2)

/-- The non-memoized branch of `computeDerivedState`: invoke the derive
function; on success store the result and the base-state reference in the
record; on a throw normalize the thrown value, invoke the configured
`onError` with `{method: "derive", state: baseState}`, and return the base
state unmerged, leaving the record untouched. -/
def deriveFresh (cfg : StoreConfig σ δ) (deriveFn : σ → Except Thrown δ)
    (baseState : σ) (rec : Record σ δ) :
    FullState σ δ × Record σ δ × List (Event σ) :=
  match deriveFn baseState with
  | Except.ok d =>
    (⟨baseState, some d⟩,
     { rec with lastDerivedBaseState := some baseState, cachedDerivedState := some d },
     [Event.deriveCall baseState])
  | Except.error thrown =>
    (⟨baseState, none⟩, rec,
     Event.deriveCall baseState ::
       (if cfg.onErrorConfigured then
          [Event.onError (normalizeThrown thrown) deriveMethodName baseState]
        else []))

/-- `computeDerivedState(baseState, cacheInstance)`.  Without a derive
function the base state is returned as-is.  The memo hit requires
`baseState === cacheInstance.lastDerivedBaseState` and
`cacheInstance.cachedDerivedState !== null`. -/
def computeDerivedState [DecidableEq σ] (cfg : StoreConfig σ δ) (baseState : σ)
    (rec : Record σ δ) : FullState σ δ × Record σ δ × List (Event σ) :=
  match cfg.derive with
  | none => (⟨baseState, none⟩, rec, [])
  | some deriveFn =>
    match rec.lastDerivedBaseState, rec.cachedDerivedState with
    | some last, some cached =>
      if last = baseState then (⟨baseState, some cached⟩, rec, [])
      else deriveFresh cfg deriveFn baseState rec
    | _, _ => deriveFresh cfg deriveFn baseState rec

/-- `invalidateDerivedCache(cacheInstance)`: reset both memo fields. -/
def invalidateDerivedCache (rec : Record σ δ) : Record σ δ :=
  { rec with lastDerivedBaseState := none, cachedDerivedState := none }

/-- `writeToAdapter(state)`: only in persistent mode with a configured
adapter is `adapter.write(state)` awaited; the event records the call. -/
def writeToAdapter (cfg : StoreConfig σ δ) (state : σ) :
    List (Event σ) × Except Thrown Unit :=
  match cfg.storage, cfg.adapter with
  | StorageMode.persistent, some ad => ([Event.adapterWrite state], ad.write state)
  | _, _ => ([], Except.ok ())

/-- The lifecycle callback fired at the end of each mutating operation:
`onInitialize(finalState)` for initialize, `onReset()` for reset, and
`onUpdate(previousState, finalState)` for update/set/patch/batch. -/
def lifecycleEvents (cfg : StoreConfig σ δ) (t : OperationType)
    (previousState finalState : σ) : List (Event σ) :=
  match t with
  | OperationType.init =>
    if cfg.onInitializeConfigured then [Event.onInitialize finalState] else []
  | OperationType.reset =>
    if cfg.onResetConfigured then [Event.onReset] else []
  | _ =>
    if cfg.onUpdateConfigured then [Event.onUpdate previousState finalState] else []

/-- Outcome of one mutating operation: the record as left in memory, the
event trace, and the error that propagated to the caller (if any). -/
structure OpResult (σ δ : Type) : Type where
  record : Record σ δ
  trace : List (Event σ)
  error : Option Thrown
deriving DecidableEq

/-- The shared tail of every mutating operation after the pipeline succeeded:
`cacheInstance.state = finalState` (plus `initialized = true` for
initialize), `invalidateDerivedCache`, `await writeToAdapter(finalState)`,
then the lifecycle callback.  A throwing write aborts before the callback
but after the in-memory commit. -/
def commitOk (cfg : StoreConfig σ δ) (t : OperationType)
    (previousState finalState : σ) (mwTrace : List (Event σ))
    (rec : Record σ δ) : OpResult σ δ :=
  let rec2 : Record σ δ :=
    { state := finalState
      initialized := if t = OperationType.init then true else rec.initialized
      lastDerivedBaseState := none
      cachedDerivedState := none }
  match (writeToAdapter cfg finalState).2 with
  | Except.error e =>
    ⟨rec2, mwTrace ++ Event.commitState finalState :: Event.invalidate ::
       (writeToAdapter cfg finalState).1, some e⟩
  | Except.ok _ =>
    ⟨rec2, mwTrace ++ Event.commitState finalState :: Event.invalidate ::
       ((writeToAdapter cfg finalState).1 ++ lifecycleEvents cfg t previousState finalState),
     none⟩

/-- The common body of every mutating operation: run the pipeline on the
candidate next state; a pipeline throw propagates without touching the
record handed in; otherwise commit. -/
def commitPhase (cfg : StoreConfig σ δ) (t : OperationType)
    (previousState candidate : σ) (rec : Record σ δ) : OpResult σ δ :=
  match (applyMiddleware cfg t previousState candidate).2 with
  | Except.error e => ⟨rec, (applyMiddleware cfg t previousState candidate).1, some e⟩
  | Except.ok finalState =>
    commitOk cfg t previousState finalState
      (applyMiddleware cfg t previousState candidate).1 rec

/-- `initialize(initialState)`. -/
def init (cfg : StoreConfig σ δ) (s : σ) (rec : Record σ δ) : OpResult σ δ :=
  commitPhase cfg OperationType.init rec.state s rec

/-- `update(updaterFunction)`: the candidate is `updaterFunction(previousState)`. -/
def update (cfg : StoreConfig σ δ) (f : σ → σ) (rec : Record σ δ) : OpResult σ δ :=
  commitPhase cfg OperationType.update rec.state (f rec.state) rec

/-- `set(newState)`. -/
def set (cfg : StoreConfig σ δ) (s : σ) (rec : Record σ δ) : OpResult σ δ :=
  commitPhase cfg OperationType.set rec.state s rec

/-- `patch(partialState)`: `patched previousState` stands for the object
spread `{...previousState, ...partialState}` of the source, abstract over
the object representation. -/
def patch (cfg : StoreConfig σ δ) (patched : σ → σ) (rec : Record σ δ) : OpResult σ δ :=
  commitPhase cfg OperationType.patch rec.state (patched rec.state) rec

/-- `reset()`: the candidate is `getInitialState()` (the configured initial
value; a factory is modelled by the value it returns). -/
def reset (cfg : StoreConfig σ δ) (rec : Record σ δ) : OpResult σ δ :=
  commitPhase cfg OperationType.reset rec.state cfg.initial rec

/-- One call into the restricted `BatchApi`: `api.update`, `api.set`, or
`api.patch` (whose `patched` again stands for the spread with the partial). -/
inductive BatchStep (σ : Type) : Type where
  | update (f : σ → σ)
  | set (s : σ)
  | patch (patched : σ → σ)

/-- Effect of one `BatchApi` call on `cacheInstance.state`: each call writes
the record's state directly and synchronously. -/
def applyBatchStep (s : σ) : BatchStep σ → σ
  | BatchStep.update f => f s
  | BatchStep.set s' => s'
  | BatchStep.patch g => g s

/-- `batch(callback)`.  The synchronous callback is modelled by the sequence
of `BatchApi` calls it performs; each mutates the record's state in place, so
at pipeline time the record already holds the accumulated value, and the
pipeline runs once with `previousState` = the state captured at batch start
and candidate = the accumulated state. -/
def batch (cfg : StoreConfig σ δ) (steps : List (BatchStep σ)) (rec : Record σ δ) :
    OpResult σ δ :=
  let initialState := rec.state
  let accumulated := steps.foldl applyBatchStep initialState
  commitPhase cfg OperationType.batch initialState accumulated
    { rec with state := accumulated }

/-- `read()`: synchronous; derives (or reuses the memoized) derived state for
the record's current base state.  Returns the full state, the record as left
by the memoization bookkeeping, and the trace. -/
def read [DecidableEq σ] (cfg : StoreConfig σ δ) (rec : Record σ δ) :
    FullState σ δ × Record σ δ × List (Event σ) :=
  computeDerivedState cfg rec.state rec

/-- `select(selectorFunction)`: `selectorFunction(read())`. -/
def select {R : Type} [DecidableEq σ] (cfg : StoreConfig σ δ)
    (sel : FullState σ δ → R) (rec : Record σ δ) :
    R × Record σ δ × List (Event σ) :=
  let res := read cfg rec
  (sel res.1, res.2.1, res.2.2)

/-- A mutating operation together with its arguments. -/
inductive StoreOp (σ : Type) : Type where
  | init (s : σ)
  | update (f : σ → σ)
  | set (s : σ)
  | patch (patched : σ → σ)
  | reset
  | batch (steps : List (BatchStep σ))

/-- The `OperationType` an operation passes to the pipeline. -/
def typeOf : StoreOp σ → OperationType
  | StoreOp.init _ => OperationType.init
  | StoreOp.update _ => OperationType.update
  | StoreOp.set _ => OperationType.set
  | StoreOp.patch _ => OperationType.patch
  | StoreOp.reset => OperationType.reset
  | StoreOp.batch _ => OperationType.batch

/-- The candidate next state each operation submits to the pipeline, as a
function of the pre-operation state. -/
def candidateOf (cfg : StoreConfig σ δ) (op : StoreOp σ) (previousState : σ) : σ :=
  match op with
  | StoreOp.init s => s
  | StoreOp.update f => f previousState
  | StoreOp.set s => s
  | StoreOp.patch g => g previousState
  | StoreOp.reset => cfg.initial
  | StoreOp.batch steps => steps.foldl applyBatchStep previousState

/-- The record as it stands when the pipeline is entered: unchanged for the
five plain operations, but already carrying the accumulated state for batch
(the callback mutated it in place). -/
def recordAtPipeline (op : StoreOp σ) (rec : Record σ δ) : Record σ δ :=
  match op with
  | StoreOp.batch steps => { rec with state := steps.foldl applyBatchStep rec.state }
  | _ => rec

/-- Dispatch a mutating operation. -/
def runOp (cfg : StoreConfig σ δ) (op : StoreOp σ) (rec : Record σ δ) : OpResult σ δ :=
  match op with
  | StoreOp.init s => init cfg s rec
  | StoreOp.update f => update cfg f rec
  | StoreOp.set s => set cfg s rec
  | StoreOp.patch g => patch cfg g rec
  | StoreOp.reset => reset cfg rec
  | StoreOp.batch steps => batch cfg steps rec

/-- A freshly created cache instance: seeded from the configured initial
value, `initialized: false`, empty memo fields (this is both the
request-scoped factory and `getPersistentInstanceSync`'s seeding). -/
def freshRecord (cfg : StoreConfig σ δ) : Record σ δ :=
  ⟨cfg.initial, false, none, none⟩

/-!
The persistent-scope resolver.  `getPersistentInstance` (async) and
`getPersistentInstanceSync` share the two module-level variables
`persistentInstance` and `persistentInstanceInitializing`.  The machine below
models them: `seedStarted` is `persistentInstanceInitializing !== null`, and
`seedPending` marks an in-flight adapter read whose continuation (storing the
seeded record) has not run yet.  `adapterValue` is the value the configured
adapter's `read()` resolves with.
-/

/-- The module-level resolver state of persistent mode. -/
structure ModuleState (σ δ : Type) : Type where
  persistentInstance : Option (Record σ δ)
  seedStarted : Bool
  seedPending : Bool
deriving DecidableEq

/-- The resolver state at process start. -/
def initialModuleState : ModuleState σ δ := ⟨none, false, false⟩

/-- Interleaving-level accesses to the persistent instance: a synchronous
access (`read`/`select` via `getPersistentInstanceSync`), the synchronous
start of an async access (`getPersistentInstance` up to its first `await`),
and the completion of the in-flight seed (the continuation after
`await adapter.read()`). -/
inductive AccessEvent : Type where
  | syncAccess
  | asyncAccess
  | seedComplete
deriving DecidableEq

/-- The record the async seed stores:
`state: adapterState ?? getInitialState(), initialized: adapterState !== null`. -/
def seededRecord (cfg : StoreConfig σ δ) (adapterValue : Option σ) : Record σ δ :=
  ⟨adapterValue.getD cfg.initial, adapterValue.isSome, none, none⟩

/-- One resolver step; the returned number counts adapter `read()` calls made
during the step.  `syncAccess` seeds from the initial value without touching
the adapter (`persistentInstance ??= {...}`); `asyncAccess` returns an
existing record or joins an in-flight seed, and only otherwise starts the
seed (calling `adapter.read()` when one is configured; without an adapter the
async body completes synchronously); `seedComplete` unconditionally stores
the seeded record. -/
def stepAccess (cfg : StoreConfig σ δ) (adapterValue : Option σ)
    (st : ModuleState σ δ) : AccessEvent → ModuleState σ δ × Nat
  | AccessEvent.syncAccess =>
    match st.persistentInstance with
    | some _ => (st, 0)
    | none => ({ st with persistentInstance := some (freshRecord cfg) }, 0)
  | AccessEvent.asyncAccess =>
    match st.persistentInstance with
    | some _ => (st, 0)
    | none =>
      if st.seedStarted then (st, 0)
      else
        match cfg.adapter with
        | some _ => ({ st with seedStarted := true, seedPending := true }, 1)
        | none =>
          (⟨some (seededRecord cfg none), true, false⟩, 0)
  | AccessEvent.seedComplete =>
    if st.seedPending then
      (⟨some (seededRecord cfg adapterValue), st.seedStarted, false⟩, 0)
    else (st, 0)

/-- Run a sequence of resolver accesses, totalling the adapter reads. -/
def runAccesses (cfg : StoreConfig σ δ) (adapterValue : Option σ)
    (st : ModuleState σ δ) : List AccessEvent → ModuleState σ δ × Nat
  | [] => (st, 0)
  | e :: rest =>
    let step := stepAccess cfg adapterValue st e
    let tail := runAccesses cfg adapterValue step.1 rest
    (tail.1, step.2 + tail.2)

/-- View of a possibly-throwing computation as its produced value, used to
state the freshness of the derived portion a read serves. -/
def exceptToOption {α : Type} : Except Thrown α → Option α
  | Except.ok a => some a
  | Except.error _ => none

/-! Event classifiers used to count observable calls in a trace. -/

/-- Recognizes the single pipeline-entry event of `applyMiddleware`. -/
def isPipelineRun : Event σ → Bool
  | Event.pipelineRun _ _ _ => true
  | _ => false

/-- Recognizes an invocation of the derive function. -/
def isDeriveCall : Event σ → Bool
  | Event.deriveCall _ => true
  | _ => false

/-- Recognizes an invocation of the `onError` callback. -/
def isOnErrorEvent : Event σ → Bool
  | Event.onError _ _ _ => true
  | _ => false

/-- Recognizes a derived-cache invalidation. -/
def isInvalidate : Event σ → Bool
  | Event.invalidate => true
  | _ => false

/-- Recognizes the in-memory commit `cacheInstance.state = finalState`. -/
def isCommit : Event σ → Bool
  | Event.commitState _ => true
  | _ => false

/-- Recognizes an `adapter.write` invocation. -/
def isAdapterWrite : Event σ → Bool
  | Event.adapterWrite _ => true
  | _ => false

/-- Recognizes a lifecycle callback (`onInitialize`/`onUpdate`/`onReset`). -/
def isLifecycle : Event σ → Bool
  | Event.onInitialize _ => true
  | Event.onUpdate _ _ => true
  | Event.onReset => true
  | _ => false

/-- Recognizes an `onUpdate` callback invocation. -/
def isOnUpdateEvent : Event σ → Bool
  | Event.onUpdate _ _ => true
  | _ => false

/-- The spec's own description of the pipeline, stated independently of the
source: fold the ordered middleware list left-to-right, each stage receiving
`{kind, previousState, nextState: stateFromPriorStage}`, the transformed
state becoming the input of the following stage and the final stage's output
the committed state; a stage throwing aborts the fold. -/
def specMiddlewareFold (t : OperationType) (previousState : σ)
    (stages : List (MwOp σ → Except Thrown σ)) (nextState : σ) : Except Thrown σ :=
  match stages with
  | [] => Except.ok nextState
  | stage :: rest =>
    match stage ⟨t, previousState, nextState⟩ with
    | Except.ok transformed => specMiddlewareFold t previousState rest transformed
    | Except.error e => Except.error e

/-! Concrete instances used to evaluate the engine on closed inputs.  States
are modelled by `Nat` (the `count` field of the example states of the spec);
derived values also by `Nat`. -/

/-- Message of the concrete thrown value used in the examples. -/
def boomMsg : String := "boom"

/-- A concrete non-`Error` thrown value. -/
def boomThrown : Thrown := Thrown.nonError boomMsg

/-- A plain request-scoped configuration: no derive, no middleware, no
adapter, no callbacks, initial state `0`. -/
def cfgPlain : StoreConfig Nat Nat where
  storage := StorageMode.request
  initial := 0
  derive := none
  middleware := []
  adapter := none
  onErrorConfigured := false
  onInitializeConfigured := false
  onUpdateConfigured := false
  onResetConfigured := false

/-- A middleware stage that always throws. -/
def throwingStage : MwOp Nat → Except Thrown Nat := fun _ => Except.error boomThrown

/-- `cfgPlain` with a single always-throwing middleware stage. -/
def cfgBoom : StoreConfig Nat Nat := { cfgPlain with middleware := [throwingStage] }

/-- The `addOne` middleware stage of the spec's ordering example. -/
def addOneStage : MwOp Nat → Except Thrown Nat := fun op => Except.ok (op.nextState + 1)

/-- The `double` middleware stage of the spec's ordering example. -/
def doubleStage : MwOp Nat → Except Thrown Nat := fun op => Except.ok (op.nextState * 2)

/-- `cfgPlain` with middleware `[addOne, double]`. -/
def cfgMw : StoreConfig Nat Nat := { cfgPlain with middleware := [addOneStage, doubleStage] }

/-- A derive function that throws exactly on base state `0` (the spec's
"throws when `value === null`" example) and succeeds otherwise. -/
def deriveThrowOnZero : Nat → Except Thrown Nat :=
  fun s => if s = 0 then Except.error boomThrown else Except.ok (s + 1)

/-- `cfgPlain` with `deriveThrowOnZero` and a configured `onError`. -/
def cfgDerive : StoreConfig Nat Nat :=
  { cfgPlain with derive := some deriveThrowOnZero, onErrorConfigured := true }

/-- A derive function that always throws. -/
def deriveBoom : Nat → Except Thrown Nat := fun _ => Except.error boomThrown

/-- `cfgPlain` with an always-throwing derive and a configured `onError`. -/
def cfgDeriveBoom : StoreConfig Nat Nat :=
  { cfgPlain with derive := some deriveBoom, onErrorConfigured := true }

/-- A derive function that always succeeds (doubling the count). -/
def deriveDouble : Nat → Except Thrown Nat := fun s => Except.ok (s * 2)

/-- `cfgPlain` with the always-succeeding derive. -/
def cfgDeriveOk : StoreConfig Nat Nat := { cfgPlain with derive := some deriveDouble }

/-- `cfgPlain` with a configured `onUpdate` callback. -/
def cfgOnUpd : StoreConfig Nat Nat := { cfgPlain with onUpdateConfigured := true }

/-- An adapter holding the stored state `7`, whose write acknowledges. -/
def adStored : Adapter Nat := ⟨Except.ok (some 7), fun _ => Except.ok ()⟩

/-- An adapter whose write always throws. -/
def adBadWrite : Adapter Nat := ⟨Except.ok none, fun _ => Except.error boomThrown⟩

/-- A persistent configuration with `adStored` and a configured `onUpdate`. -/
def cfgPersist : StoreConfig Nat Nat :=
  { cfgPlain with storage := StorageMode.persistent, adapter := some adStored,
                  onUpdateConfigured := true }

/-- A persistent configuration whose adapter write always throws. -/
def cfgPersistBad : StoreConfig Nat Nat :=
  { cfgPlain with storage := StorageMode.persistent, adapter := some adBadWrite }

/-- A request-scoped configuration that nevertheless has an adapter
configured (the adapter must still never be written to). -/
def cfgRequestAd : StoreConfig Nat Nat := { cfgPlain with adapter := some adStored }

/-- A concrete selector projecting the base portion. -/
def baseSelector : FullState Nat Nat → Nat := fun s => s.base

/-! Structural lemmas about the pipeline. -/

lemma countP_runStages (p : Event σ → Bool)
    (hp : ∀ op : MwOp σ, p (Event.mwStage op) = false)
    (t : OperationType) (previousState : σ)
    (stages : List (MwOp σ → Except Thrown σ)) :
    ∀ current : σ, ((runStages t previousState stages current).1).countP p = 0 := by
  induction stages with
  | nil => intro current; simp [runStages]
  | cons stage rest ih =>
    intro current
    cases h : stage ⟨t, previousState, current⟩ with
    | ok next => simp [runStages, h, List.countP_cons, hp, ih next]
    | error e => simp [runStages, h, List.countP_cons, hp]

lemma mem_runStages (t : OperationType) (previousState : σ)
    (stages : List (MwOp σ → Except Thrown σ)) :
    ∀ current : σ, ∀ e ∈ (runStages t previousState stages current).1,
      ∃ s' : σ, e = Event.mwStage ⟨t, previousState, s'⟩ := by
  induction stages with
  | nil => intro current e he; simp [runStages] at he
  | cons stage rest ih =>
    intro current e he
    cases h : stage ⟨t, previousState, current⟩ with
    | ok next =>
      simp only [runStages, h, List.mem_cons] at he
      rcases he with rfl | he
      · exact ⟨current, rfl⟩
      · exact ih next e he
    | error e' =>
      simp only [runStages, h, List.mem_cons, List.not_mem_nil, or_false] at he
      exact ⟨current, he⟩

lemma runStages_eq_specFold (t : OperationType) (previousState : σ)
    (stages : List (MwOp σ → Except Thrown σ)) :
    ∀ current : σ, (runStages t previousState stages current).2 =
      specMiddlewareFold t previousState stages current := by
  induction stages with
  | nil => intro current; rfl
  | cons stage rest ih =>
    intro current
    cases h : stage ⟨t, previousState, current⟩ with
    | ok next => simp [runStages, specMiddlewareFold, h, ih next]
    | error e => simp [runStages, specMiddlewareFold, h]

lemma countP_applyMiddleware (cfg : StoreConfig σ δ) (t : OperationType)
    (previousState nextState : σ) (p : Event σ → Bool)
    (hp : ∀ op : MwOp σ, p (Event.mwStage op) = false) :
    ((applyMiddleware cfg t previousState nextState).1).countP p =
      if p (Event.pipelineRun t previousState nextState) then 1 else 0 := by
  simp [applyMiddleware, List.countP_cons,
    countP_runStages p hp t previousState cfg.middleware nextState]

/-! Structural lemmas about the adapter bridge and lifecycle callbacks. -/

lemma writeToAdapter_request (cfg : StoreConfig σ δ)
    (h : cfg.storage = StorageMode.request) (s : σ) :
    writeToAdapter cfg s = ([], Except.ok ()) := by
  cases hc : cfg.adapter <;> simp [writeToAdapter, h, hc]

lemma writeToAdapter_noAdapter (cfg : StoreConfig σ δ)
    (h : cfg.adapter = none) (s : σ) :
    writeToAdapter cfg s = ([], Except.ok ()) := by
  cases hs : cfg.storage <;> simp [writeToAdapter, h, hs]

lemma writeToAdapter_persistent (cfg : StoreConfig σ δ) (ad : Adapter σ)
    (hs : cfg.storage = StorageMode.persistent) (ha : cfg.adapter = some ad) (s : σ) :
    writeToAdapter cfg s = ([Event.adapterWrite s], ad.write s) := by
  simp [writeToAdapter, hs, ha]

lemma countP_writeToAdapter (cfg : StoreConfig σ δ) (s : σ) (p : Event σ → Bool)
    (hp : ∀ x : σ, p (Event.adapterWrite x) = false) :
    ((writeToAdapter cfg s).1).countP p = 0 := by
  cases hs : cfg.storage <;> cases ha : cfg.adapter <;>
    simp [writeToAdapter, hs, ha, List.countP_cons, hp]

lemma countP_writeToAdapter_self (cfg : StoreConfig σ δ) (s : σ) :
    ((writeToAdapter cfg s).1).countP isAdapterWrite ≤ 1 := by
  cases hs : cfg.storage <;> cases ha : cfg.adapter <;>
    simp [writeToAdapter, hs, ha, List.countP_cons, isAdapterWrite]

lemma countP_lifecycleEvents (cfg : StoreConfig σ δ) (t : OperationType)
    (prev fs : σ) (p : Event σ → Bool)
    (h1 : ∀ x : σ, p (Event.onInitialize x) = false)
    (h2 : ∀ x y : σ, p (Event.onUpdate x y) = false)
    (h3 : p Event.onReset = false) :
    (lifecycleEvents cfg t prev fs).countP p = 0 := by
  cases t <;> simp only [lifecycleEvents] <;> split <;>
    simp [List.countP_cons, h1, h2, h3]

/-! Case-analysis lemmas for the shared commit phase. -/

lemma commitPhase_mwError {cfg : StoreConfig σ δ} {t : OperationType}
    {prev cand : σ} {e : Thrown} (rec : Record σ δ)
    (h : (applyMiddleware cfg t prev cand).2 = Except.error e) :
    commitPhase cfg t prev cand rec =
      ⟨rec, (applyMiddleware cfg t prev cand).1, some e⟩ := by
  unfold commitPhase
  rw [h]

lemma commitPhase_mwOk {cfg : StoreConfig σ δ} {t : OperationType}
    {prev cand fs : σ} (rec : Record σ δ)
    (h : (applyMiddleware cfg t prev cand).2 = Except.ok fs) :
    commitPhase cfg t prev cand rec =
      commitOk cfg t prev fs (applyMiddleware cfg t prev cand).1 rec := by
  unfold commitPhase
  rw [h]

lemma commitOk_writeError {cfg : StoreConfig σ δ} {t : OperationType}
    {prev fs : σ} {e : Thrown} (mwTrace : List (Event σ)) (rec : Record σ δ)
    (h : (writeToAdapter cfg fs).2 = Except.error e) :
    commitOk cfg t prev fs mwTrace rec =
      ⟨⟨fs, if t = OperationType.init then true else rec.initialized, none, none⟩,
       mwTrace ++ Event.commitState fs :: Event.invalidate :: (writeToAdapter cfg fs).1,
       some e⟩ := by
  unfold commitOk
  rw [h]

lemma commitOk_writeOk {cfg : StoreConfig σ δ} {t : OperationType}
    {prev fs : σ} (mwTrace : List (Event σ)) (rec : Record σ δ)
    (h : (writeToAdapter cfg fs).2 = Except.ok ()) :
    commitOk cfg t prev fs mwTrace rec =
      ⟨⟨fs, if t = OperationType.init then true else rec.initialized, none, none⟩,
       mwTrace ++ Event.commitState fs :: Event.invalidate ::
         ((writeToAdapter cfg fs).1 ++ lifecycleEvents cfg t prev fs),
       none⟩ := by
  unfold commitOk
  rw [h]

lemma runOp_eq (cfg : StoreConfig σ δ) (op : StoreOp σ) (rec : Record σ δ) :
    runOp cfg op rec =
      commitPhase cfg (typeOf op) rec.state (candidateOf cfg op rec.state)
        (recordAtPipeline op rec) := by
  cases op <;> rfl

/-! Case-analysis lemmas for the derived-state cache. -/

lemma deriveFresh_ok {deriveFn : σ → Except Thrown δ} {s : σ} {d : δ}
    (cfg : StoreConfig σ δ) (rec : Record σ δ) (h : deriveFn s = Except.ok d) :
    deriveFresh cfg deriveFn s rec =
      (⟨s, some d⟩,
       { rec with lastDerivedBaseState := some s, cachedDerivedState := some d },
       [Event.deriveCall s]) := by
  unfold deriveFresh
  rw [h]

lemma deriveFresh_error {deriveFn : σ → Except Thrown δ} {s : σ} {th : Thrown}
    (cfg : StoreConfig σ δ) (rec : Record σ δ) (h : deriveFn s = Except.error th) :
    deriveFresh cfg deriveFn s rec =
      (⟨s, none⟩, rec,
       Event.deriveCall s ::
         (if cfg.onErrorConfigured then
            [Event.onError (normalizeThrown th) deriveMethodName s] else [])) := by
  unfold deriveFresh
  rw [h]

lemma computeDerived_noDerive [DecidableEq σ] {cfg : StoreConfig σ δ}
    (h : cfg.derive = none) (s : σ) (rec : Record σ δ) :
    computeDerivedState cfg s rec = (⟨s, none⟩, rec, []) := by
  unfold computeDerivedState
  rw [h]

lemma computeDerived_hit [DecidableEq σ] {cfg : StoreConfig σ δ}
    {deriveFn : σ → Except Thrown δ} {s : σ} {c : δ} (rec : Record σ δ)
    (h : cfg.derive = some deriveFn)
    (hl : rec.lastDerivedBaseState = some s) (hc : rec.cachedDerivedState = some c) :
    computeDerivedState cfg s rec = (⟨s, some c⟩, rec, []) := by
  unfold computeDerivedState
  rw [h, hl, hc]
  simp

lemma computeDerived_missEmpty [DecidableEq σ] {cfg : StoreConfig σ δ}
    {deriveFn : σ → Except Thrown δ} (s : σ) (rec : Record σ δ)
    (h : cfg.derive = some deriveFn) (hl : rec.lastDerivedBaseState = none) :
    computeDerivedState cfg s rec = deriveFresh cfg deriveFn s rec := by
  unfold computeDerivedState
  rw [h, hl]

lemma computeDerived_missOther [DecidableEq σ] {cfg : StoreConfig σ δ}
    {deriveFn : σ → Except Thrown δ} {s s' : σ} (rec : Record σ δ)
    (h : cfg.derive = some deriveFn) (hl : rec.lastDerivedBaseState = some s')
    (hne : s' ≠ s) :
    computeDerivedState cfg s rec = deriveFresh cfg deriveFn s rec := by
  unfold computeDerivedState
  rw [h, hl]
  cases hc : rec.cachedDerivedState with
  | none => rfl
  | some c => simp [hne]

lemma read_def [DecidableEq σ] (cfg : StoreConfig σ δ) (rec : Record σ δ) :
    read cfg rec = computeDerivedState cfg rec.state rec := rfl

lemma deriveFresh_base {deriveFn : σ → Except Thrown δ} (cfg : StoreConfig σ δ)
    (s : σ) (rec : Record σ δ) : (deriveFresh cfg deriveFn s rec).1.base = s := by
  unfold deriveFresh
  cases deriveFn s <;> rfl

lemma read_base [DecidableEq σ] (cfg : StoreConfig σ δ) (rec : Record σ δ) :
    (read cfg rec).1.base = rec.state := by
  rw [read_def]
  unfold computeDerivedState
  cases h : cfg.derive with
  | none => rfl
  | some deriveFn =>
    cases hl : rec.lastDerivedBaseState with
    | none => exact deriveFresh_base cfg rec.state rec
    | some s' =>
      cases hc : rec.cachedDerivedState with
      | none => exact deriveFresh_base cfg rec.state rec
      | some c =>
        by_cases he : s' = rec.state
        · simp [he]
        · simp [he, deriveFresh_base cfg rec.state rec]

/-! Further facts about the shared commit phase. -/

lemma commitOk_record {cfg : StoreConfig σ δ} {t : OperationType} {prev fs : σ}
    (mwTrace : List (Event σ)) (rec : Record σ δ) :
    (commitOk cfg t prev fs mwTrace rec).record =
      ⟨fs, if t = OperationType.init then true else rec.initialized, none, none⟩ := by
  rcases hw : (writeToAdapter cfg fs).2 with e | u
  · rw [commitOk_writeError mwTrace rec hw]
  · cases u
    rw [commitOk_writeOk mwTrace rec hw]

lemma commitPhase_none_trace {cfg : StoreConfig σ δ} {t : OperationType}
    {prev cand : σ} (rec : Record σ δ)
    (h : (commitPhase cfg t prev cand rec).error = none) :
    ∃ fs : σ,
      (applyMiddleware cfg t prev cand).2 = Except.ok fs ∧
      (writeToAdapter cfg fs).2 = Except.ok () ∧
      commitPhase cfg t prev cand rec =
        ⟨⟨fs, if t = OperationType.init then true else rec.initialized, none, none⟩,
         (applyMiddleware cfg t prev cand).1 ++ Event.commitState fs ::
           Event.invalidate ::
             ((writeToAdapter cfg fs).1 ++ lifecycleEvents cfg t prev fs),
         none⟩ := by
  rcases hm : (applyMiddleware cfg t prev cand).2 with e | fs
  · rw [commitPhase_mwError rec hm] at h
    simp at h
  · rcases hw : (writeToAdapter cfg fs).2 with e | u
    · rw [commitPhase_mwOk rec hm, commitOk_writeError _ rec hw] at h
      simp at h
    · cases u
      exact ⟨fs, rfl, hw, by rw [commitPhase_mwOk rec hm, commitOk_writeOk _ rec hw]⟩

lemma commitPhase_pipeline_once (cfg : StoreConfig σ δ) (t : OperationType)
    (prev cand : σ) (rec : Record σ δ) :
    ((commitPhase cfg t prev cand rec).trace).countP isPipelineRun = 1 ∧
      Event.pipelineRun t prev cand ∈ (commitPhase cfg t prev cand rec).trace := by
  have hmw : ∀ op : MwOp σ, isPipelineRun (Event.mwStage op) = false := fun _ => rfl
  have hcnt := countP_applyMiddleware cfg t prev cand isPipelineRun hmw
  have hmem : Event.pipelineRun t prev cand ∈ (applyMiddleware cfg t prev cand).1 := by
    simp [applyMiddleware]
  rcases hm : (applyMiddleware cfg t prev cand).2 with e | fs
  · rw [commitPhase_mwError rec hm]
    exact ⟨by simpa [isPipelineRun] using hcnt, hmem⟩
  · rcases hw : (writeToAdapter cfg fs).2 with e | u
    · rw [commitPhase_mwOk rec hm, commitOk_writeError _ rec hw]
      refine ⟨?_, List.mem_append_left _ hmem⟩
      simp [List.countP_append, List.countP_cons, isPipelineRun,
        countP_writeToAdapter cfg fs isPipelineRun (fun _ => rfl)]
      simpa [isPipelineRun] using hcnt
    · cases u
      rw [commitPhase_mwOk rec hm, commitOk_writeOk _ rec hw]
      refine ⟨?_, List.mem_append_left _ hmem⟩
      simp [List.countP_append, List.countP_cons, isPipelineRun,
        countP_writeToAdapter cfg fs isPipelineRun (fun _ => rfl),
        countP_lifecycleEvents cfg t prev fs isPipelineRun
          (fun _ => rfl) (fun _ _ => rfl) rfl]
      simpa [isPipelineRun] using hcnt

lemma recordAtPipeline_initialized (op : StoreOp σ) (rec : Record σ δ) :
    (recordAtPipeline op rec).initialized = rec.initialized := by
  cases op <;> rfl

lemma commitPhase_initialized_ne {cfg : StoreConfig σ δ} {t : OperationType}
    {prev cand : σ} (rec : Record σ δ) (h : t ≠ OperationType.init) :
    (commitPhase cfg t prev cand rec).record.initialized = rec.initialized := by
  rcases hm : (applyMiddleware cfg t prev cand).2 with e | fs
  · rw [commitPhase_mwError rec hm]
  · rw [commitPhase_mwOk rec hm, commitOk_record]
    simp [h]

lemma commitPhase_initialized_mono {cfg : StoreConfig σ δ} {t : OperationType}
    {prev cand : σ} (rec : Record σ δ) (h : rec.initialized = true) :
    (commitPhase cfg t prev cand rec).record.initialized = true := by
  rcases hm : (applyMiddleware cfg t prev cand).2 with e | fs
  · rw [commitPhase_mwError rec hm]
    exact h
  · rw [commitPhase_mwOk rec hm, commitOk_record]
    simp [h]

/-! Facts about the persistent-scope resolver machine. -/

lemma stepAccess_preserves_started (cfg : StoreConfig σ δ) (v : Option σ)
    (st : ModuleState σ δ) (e : AccessEvent) (h : st.seedStarted = true) :
    ((stepAccess cfg v st e).1).seedStarted = true ∧ (stepAccess cfg v st e).2 = 0 := by
  cases e with
  | syncAccess =>
    cases hi : st.persistentInstance <;> simp [stepAccess, hi, h]
  | asyncAccess =>
    cases hi : st.persistentInstance <;> simp [stepAccess, hi, h]
  | seedComplete =>
    by_cases hp : st.seedPending = true
    · simp [stepAccess, hp, h]
    · simp only [Bool.not_eq_true] at hp
      simp [stepAccess, hp, h]

lemma stepAccess_read_le_one (cfg : StoreConfig σ δ) (v : Option σ)
    (st : ModuleState σ δ) (e : AccessEvent) :
    (stepAccess cfg v st e).2 ≤ 1 ∧
      ((stepAccess cfg v st e).2 = 1 → ((stepAccess cfg v st e).1).seedStarted = true) := by
  cases e with
  | syncAccess =>
    cases hi : st.persistentInstance <;> simp [stepAccess, hi]
  | asyncAccess =>
    cases hi : st.persistentInstance
    · by_cases hs : st.seedStarted = true
      · simp [stepAccess, hi, hs]
      · simp only [Bool.not_eq_true] at hs
        cases ha : cfg.adapter <;> simp [stepAccess, hi, hs, ha]
    · simp [stepAccess, hi]
  | seedComplete =>
    by_cases hp : st.seedPending = true
    · simp [stepAccess, hp]
    · simp only [Bool.not_eq_true] at hp
      simp [stepAccess, hp]

lemma runAccesses_started_zero (cfg : StoreConfig σ δ) (v : Option σ) :
    ∀ (evs : List AccessEvent) (st : ModuleState σ δ), st.seedStarted = true →
      (runAccesses cfg v st evs).2 = 0 := by
  intro evs
  induction evs with
  | nil => intro st _; rfl
  | cons e rest ih =>
    intro st h
    obtain ⟨h1, h2⟩ := stepAccess_preserves_started cfg v st e h
    simp [runAccesses, h2, ih _ h1]

lemma runAccesses_le_one (cfg : StoreConfig σ δ) (v : Option σ) :
    ∀ (evs : List AccessEvent) (st : ModuleState σ δ),
      (runAccesses cfg v st evs).2 ≤ 1 := by
  intro evs
  induction evs with
  | nil => intro st; simp [runAccesses]
  | cons e rest ih =>
    intro st
    rcases Nat.lt_or_ge (stepAccess cfg v st e).2 1 with h | h
    · have h0 : (stepAccess cfg v st e).2 = 0 := Nat.lt_one_iff.mp h
      simpa [runAccesses, h0] using ih (stepAccess cfg v st e).1
    · have h1 : (stepAccess cfg v st e).2 = 1 :=
        le_antisymm (stepAccess_read_le_one cfg v st e).1 h
      have hst := (stepAccess_read_le_one cfg v st e).2 h1
      simp [runAccesses, h1, runAccesses_started_zero cfg v rest _ hst]

lemma countP_applyMiddleware_zero (cfg : StoreConfig σ δ) (t : OperationType)
    (prev cand : σ) (p : Event σ → Bool)
    (hp : ∀ op : MwOp σ, p (Event.mwStage op) = false)
    (hq : p (Event.pipelineRun t prev cand) = false) :
    ((applyMiddleware cfg t prev cand).1).countP p = 0 := by
  rw [countP_applyMiddleware cfg t prev cand p hp, hq]
  rfl

lemma commitPhase_request_no_write {cfg : StoreConfig σ δ} {t : OperationType}
    {prev cand : σ} (rec : Record σ δ) (hs : cfg.storage = StorageMode.request) :
    ((commitPhase cfg t prev cand rec).trace).countP isAdapterWrite = 0 := by
  have hmw : ((applyMiddleware cfg t prev cand).1).countP isAdapterWrite = 0 :=
    countP_applyMiddleware_zero cfg t prev cand isAdapterWrite (fun _ => rfl) rfl
  rcases hm : (applyMiddleware cfg t prev cand).2 with e | fs
  · rw [commitPhase_mwError rec hm]
    exact hmw
  · have hwp := writeToAdapter_request cfg hs fs
    rcases hw : (writeToAdapter cfg fs).2 with e | u
    · rw [hwp] at hw
      simp at hw
    · cases u
      rw [commitPhase_mwOk rec hm, commitOk_writeOk _ rec hw]
      simp [List.countP_append, List.countP_cons, isAdapterWrite, hmw, hwp,
        countP_lifecycleEvents cfg t prev fs isAdapterWrite
          (fun _ => rfl) (fun _ _ => rfl) rfl]

/-! The claims. -/

/-- C3: for every mutating operation with a configured middleware list the
pipeline folds the list left-to-right exactly as the spec describes it
(`specMiddlewareFold`): each stage receives the operation kind, the
pre-operation state, and the prior stage's output as `nextState`; stages are
sequenced strictly in order (modelled by the `Except`-sequencing of the
awaited stages), and the last stage's output is the committed state; with
middleware `[addOne, double]` and an update producing count `5`, the
committed count is `(5+1)*2 = 12`. -/
theorem c3_middleware_fold {σ δ : Type} :
    (∀ (cfg : StoreConfig σ δ) (t : OperationType) (prev next : σ),
       (applyMiddleware cfg t prev next).2 =
         specMiddlewareFold t prev cfg.middleware next) ∧
    (∀ (cfg : StoreConfig σ δ) (t : OperationType) (prev next : σ),
       ∀ e ∈ (applyMiddleware cfg t prev next).1,
         e = Event.pipelineRun t prev next ∨
           ∃ s' : σ, e = Event.mwStage ⟨t, prev, s'⟩) ∧
    (∀ (cfg : StoreConfig σ δ) (f : σ → σ) (rec : Record σ δ) (fs : σ),
       (applyMiddleware cfg OperationType.update rec.state (f rec.state)).2 =
           Except.ok fs →
         (update cfg f rec).record.state = fs) ∧
    (update cfgMw (fun _ => 5) (freshRecord cfgMw)).record.state = 12 := by
  refine ⟨?_, ?_, ?_, by decide⟩
  · intro cfg t prev next
    simp [applyMiddleware, runStages_eq_specFold]
  · intro cfg t prev next e he
    simp only [applyMiddleware, List.mem_cons] at he
    rcases he with rfl | he
    · exact Or.inl rfl
    · exact Or.inr (mem_runStages t prev cfg.middleware next e he)
  · intro cfg f rec fs h
    show (commitPhase cfg OperationType.update rec.state (f rec.state) rec).record.state = fs
    rw [commitPhase_mwOk rec h, commitOk_record]

/-- Witness for C3: the fold equivalence, the stage-descriptor shape, and the
commit of the last stage's output, at the concrete `[addOne, double]` store. -/
theorem c3_middleware_fold_witness :
    (applyMiddleware cfgMw OperationType.update 0 5).2 =
        specMiddlewareFold OperationType.update 0 cfgMw.middleware 5 ∧
      (Event.pipelineRun OperationType.update 0 5 =
          Event.pipelineRun OperationType.update 0 5 ∨
        ∃ s' : Nat, Event.pipelineRun OperationType.update 0 5 =
          Event.mwStage ⟨OperationType.update, 0, s'⟩) ∧
      (update cfgMw (fun _ => 5) (freshRecord cfgMw)).record.state = 12 := by
  have h := @c3_middleware_fold Nat Nat
  refine ⟨h.1 cfgMw OperationType.update 0 5, ?_, h.2.2.2⟩
  exact h.2.1 cfgMw OperationType.update 0 5
    (Event.pipelineRun OperationType.update 0 5) (by decide)

/-- C1 (amended): when a middleware stage throws, the operation propagates
the error to its caller; for initialize, update, set, patch, and reset the
Instance Record is left unchanged from before the call, but for batch the
record keeps the state accumulated by the callback's api calls (which the
callback wrote directly into the record before the pipeline ran), not the
pre-call state. -/
theorem c1_middleware_failure {σ δ : Type} (cfg : StoreConfig σ δ)
    (op : StoreOp σ) (rec : Record σ δ) (e : Thrown)
    (h : (applyMiddleware cfg (typeOf op) rec.state
        (candidateOf cfg op rec.state)).2 = Except.error e) :
    (runOp cfg op rec).error = some e ∧
    (typeOf op ≠ OperationType.batch → (runOp cfg op rec).record = rec) ∧
    (∀ steps : List (BatchStep σ), op = StoreOp.batch steps →
      (runOp cfg op rec).record =
        { rec with state := steps.foldl applyBatchStep rec.state }) := by
  rw [runOp_eq, commitPhase_mwError (recordAtPipeline op rec) h]
  refine ⟨rfl, ?_, ?_⟩
  · intro hnb
    cases op with
    | batch steps => exact absurd rfl hnb
    | _ => rfl
  · rintro steps rfl
    rfl

/-- Witness for C1 (amended): a throwing stage on a plain `set` propagates
the thrown value and leaves the fresh record untouched. -/
theorem c1_middleware_failure_witness :
    (runOp cfgBoom (StoreOp.set 5) (freshRecord cfgBoom)).error = some boomThrown ∧
      (runOp cfgBoom (StoreOp.set 5) (freshRecord cfgBoom)).record =
        freshRecord cfgBoom := by
  have h := c1_middleware_failure cfgBoom (StoreOp.set 5) (freshRecord cfgBoom)
    boomThrown rfl
  exact ⟨h.1, h.2.1 (by decide)⟩

/-- C1 is false as stated for batch: with an always-throwing middleware, a
batch whose callback performed one `set(1)` step propagates the error but
leaves the record's state at the accumulated value `1`, different from its
pre-call value `0` — partial state remains committed. -/
theorem c1_claim_false :
    (batch cfgBoom [BatchStep.set 1] (freshRecord cfgBoom)).error = some boomThrown ∧
      (freshRecord cfgBoom).state = 0 ∧
      (batch cfgBoom [BatchStep.set 1] (freshRecord cfgBoom)).record.state = 1 ∧
      (batch cfgBoom [BatchStep.set 1] (freshRecord cfgBoom)).record.state ≠
        (freshRecord cfgBoom).state := by
  refine ⟨rfl, rfl, rfl, by decide⟩

/-- C9 (amended): the `initialized` flag starts `false` on a freshly created
record, becomes `true` after a successful initialize commit, is left
unchanged by update, set, patch, reset, and batch (in particular a
successful `set` does NOT mark the record initialized), and no operation
ever returns it to `false` once it is `true`. -/
theorem c9_initialized_flag {σ δ : Type} (cfg : StoreConfig σ δ) :
    ((freshRecord cfg).initialized = false) ∧
    (∀ (s : σ) (rec : Record σ δ), (init cfg s rec).error = none →
       (init cfg s rec).record.initialized = true) ∧
    (∀ (op : StoreOp σ) (rec : Record σ δ), typeOf op ≠ OperationType.init →
       (runOp cfg op rec).record.initialized = rec.initialized) ∧
    (∀ (op : StoreOp σ) (rec : Record σ δ), rec.initialized = true →
       (runOp cfg op rec).record.initialized = true) := by
  refine ⟨rfl, ?_, ?_, ?_⟩
  · intro s rec h
    show (commitPhase cfg OperationType.init rec.state s rec).record.initialized = true
    obtain ⟨fs, hm, hw, heq⟩ := commitPhase_none_trace rec h
    rw [heq]
    simp
  · intro op rec h
    rw [runOp_eq, commitPhase_initialized_ne _ h, recordAtPipeline_initialized]
  · intro op rec h
    rw [runOp_eq]
    exact commitPhase_initialized_mono _ (by rw [recordAtPipeline_initialized]; exact h)

/-- Witness for C9 (amended): on concrete stores, initialize marks the flag,
`set` leaves it unchanged, and reset keeps an already-true flag true. -/
theorem c9_initialized_flag_witness :
    (init cfgPlain 5 (freshRecord cfgPlain)).record.initialized = true ∧
      (runOp cfgPlain (StoreOp.set 5) (freshRecord cfgPlain)).record.initialized =
        (freshRecord cfgPlain).initialized ∧
      (runOp cfgPlain StoreOp.reset ⟨3, true, none, none⟩).record.initialized = true := by
  have h := c9_initialized_flag cfgPlain
  exact ⟨h.2.1 5 (freshRecord cfgPlain) rfl,
    h.2.2.1 (StoreOp.set 5) (freshRecord cfgPlain) (by decide),
    h.2.2.2 StoreOp.reset ⟨3, true, none, none⟩ rfl⟩

/-- C9 is false as stated: a successful `set` commit on a fresh record leaves
`initialized = false`; only `initialize` (and adapter seeding with a stored
value) sets the flag. -/
theorem c9_claim_false :
    (set cfgPlain 5 (freshRecord cfgPlain)).error = none ∧
      (set cfgPlain 5 (freshRecord cfgPlain)).record.initialized = false := by
  exact ⟨rfl, rfl⟩

/-- C2: every `batch(callback)` call runs the middleware pipeline exactly
once, with kind `batch`, `previousState` = the record's state captured at
batch start, and `nextState` = the post-callback accumulated state; on
success there is exactly one derived-cache invalidation, at most one adapter
write, and (when `onUpdate` is configured) exactly one `onUpdate` invocation
with `(stateBeforeBatch, finalState)`, regardless of how many internal steps
the callback performed; a zero-step callback still runs the pipeline once
with `previousState` reference-equal to `nextState`. -/
theorem c2_batch_single_pipeline {σ δ : Type} (cfg : StoreConfig σ δ)
    (steps : List (BatchStep σ)) (rec : Record σ δ) :
    (((batch cfg steps rec).trace).countP isPipelineRun = 1 ∧
      Event.pipelineRun OperationType.batch rec.state
          (steps.foldl applyBatchStep rec.state) ∈ (batch cfg steps rec).trace) ∧
    ((batch cfg steps rec).error = none →
      ((batch cfg steps rec).trace).countP isInvalidate = 1 ∧
      ((batch cfg steps rec).trace).countP isAdapterWrite ≤ 1 ∧
      (cfg.onUpdateConfigured = true →
        ((batch cfg steps rec).trace).countP isOnUpdateEvent = 1 ∧
        Event.onUpdate rec.state (batch cfg steps rec).record.state ∈
          (batch cfg steps rec).trace)) ∧
    (steps = [] →
      Event.pipelineRun OperationType.batch rec.state rec.state ∈
        (batch cfg steps rec).trace) := by
  have hb : batch cfg steps rec =
      commitPhase cfg OperationType.batch rec.state
        (steps.foldl applyBatchStep rec.state)
        { rec with state := steps.foldl applyBatchStep rec.state } := rfl
  refine ⟨?_, ?_, ?_⟩
  · rw [hb]
    exact commitPhase_pipeline_once cfg OperationType.batch rec.state
      (steps.foldl applyBatchStep rec.state)
      { rec with state := steps.foldl applyBatchStep rec.state }
  · intro h
    rw [hb] at h
    obtain ⟨fs, hm, hw, heq⟩ := commitPhase_none_trace _ h
    rw [hb, heq]
    refine ⟨?_, ?_, ?_⟩
    · simp [List.countP_append, List.countP_cons, isInvalidate,
        countP_applyMiddleware_zero cfg OperationType.batch rec.state
          (steps.foldl applyBatchStep rec.state) isInvalidate (fun _ => rfl) rfl,
        countP_writeToAdapter cfg fs isInvalidate (fun _ => rfl),
        countP_lifecycleEvents cfg OperationType.batch rec.state fs isInvalidate
          (fun _ => rfl) (fun _ _ => rfl) rfl]
    · simpa [List.countP_append, List.countP_cons, isAdapterWrite,
        countP_applyMiddleware_zero cfg OperationType.batch rec.state
          (steps.foldl applyBatchStep rec.state) isAdapterWrite (fun _ => rfl) rfl,
        countP_lifecycleEvents cfg OperationType.batch rec.state fs isAdapterWrite
          (fun _ => rfl) (fun _ _ => rfl) rfl] using
        countP_writeToAdapter_self cfg fs
    · intro hcb
      constructor
      · simp [List.countP_append, List.countP_cons, isOnUpdateEvent,
          countP_applyMiddleware_zero cfg OperationType.batch rec.state
            (steps.foldl applyBatchStep rec.state) isOnUpdateEvent (fun _ => rfl) rfl,
          countP_writeToAdapter cfg fs isOnUpdateEvent (fun _ => rfl),
          lifecycleEvents, hcb]
      · simp [List.mem_append, lifecycleEvents, hcb]
  · intro hsteps
    subst hsteps
    rw [hb]
    exact (commitPhase_pipeline_once cfg OperationType.batch rec.state
      (List.foldl applyBatchStep rec.state [])
      { rec with state := List.foldl applyBatchStep rec.state [] }).2

/-- Witness for C2: a three-step batch on a store with `onUpdate` configured
commits `7`, invalidates once, runs `onUpdate` once with `(0, 7)`. -/
theorem c2_batch_single_pipeline_witness :
    ((batch cfgOnUpd [BatchStep.update (fun s => s + 1), BatchStep.set 5,
          BatchStep.update (fun s => s + 2)] (freshRecord cfgOnUpd)).trace).countP
        isInvalidate = 1 ∧
      ((batch cfgOnUpd [BatchStep.update (fun s => s + 1), BatchStep.set 5,
          BatchStep.update (fun s => s + 2)] (freshRecord cfgOnUpd)).trace).countP
        isOnUpdateEvent = 1 ∧
      Event.onUpdate (freshRecord cfgOnUpd).state
          (batch cfgOnUpd [BatchStep.update (fun s => s + 1), BatchStep.set 5,
            BatchStep.update (fun s => s + 2)] (freshRecord cfgOnUpd)).record.state ∈
        (batch cfgOnUpd [BatchStep.update (fun s => s + 1), BatchStep.set 5,
          BatchStep.update (fun s => s + 2)] (freshRecord cfgOnUpd)).trace := by
  have h := (c2_batch_single_pipeline cfgOnUpd
    [BatchStep.update (fun s => s + 1), BatchStep.set 5,
      BatchStep.update (fun s => s + 2)] (freshRecord cfgOnUpd)).2.1 rfl
  exact ⟨h.1, (h.2.2 rfl).1, (h.2.2 rfl).2⟩

/-- C6: in persistent scope with a configured adapter, every successful
mutating operation produces exactly one `adapter.write`, carrying the final
post-middleware state (= the committed record state), placed after the
pipeline run, the in-memory commit, and the cache invalidation, and before
any lifecycle callback; in request scope mode `adapter.write` is never
invoked, regardless of adapter configuration. -/
theorem c6_adapter_write {σ δ : Type} (cfg : StoreConfig σ δ) (op : StoreOp σ)
    (rec : Record σ δ) :
    (∀ ad : Adapter σ, cfg.storage = StorageMode.persistent → cfg.adapter = some ad →
       (runOp cfg op rec).error = none →
       ∃ t1 t2 : List (Event σ),
         (runOp cfg op rec).trace =
             t1 ++ Event.adapterWrite ((runOp cfg op rec).record.state) :: t2 ∧
           t1.countP isAdapterWrite = 0 ∧ t2.countP isAdapterWrite = 0 ∧
           t1.countP isPipelineRun = 1 ∧ t1.countP isCommit = 1 ∧
           t1.countP isInvalidate = 1 ∧ t1.countP isLifecycle = 0 ∧
           t2 = lifecycleEvents cfg (typeOf op) rec.state
             ((runOp cfg op rec).record.state)) ∧
    (cfg.storage = StorageMode.request →
       ((runOp cfg op rec).trace).countP isAdapterWrite = 0) := by
  constructor
  · intro ad hs ha h
    rw [runOp_eq] at h ⊢
    obtain ⟨fs, hm, hw, heq⟩ := commitPhase_none_trace _ h
    rw [heq]
    refine ⟨(applyMiddleware cfg (typeOf op) rec.state
        (candidateOf cfg op rec.state)).1 ++ [Event.commitState fs, Event.invalidate],
      lifecycleEvents cfg (typeOf op) rec.state fs, ?_, ?_, ?_, ?_, ?_, ?_, ?_, rfl⟩
    · simp [writeToAdapter_persistent cfg ad hs ha fs]
    · simp [List.countP_append, List.countP_cons, isAdapterWrite,
        countP_applyMiddleware_zero cfg (typeOf op) rec.state
          (candidateOf cfg op rec.state) isAdapterWrite (fun _ => rfl) rfl]
    · exact countP_lifecycleEvents cfg (typeOf op) rec.state fs isAdapterWrite
        (fun _ => rfl) (fun _ _ => rfl) rfl
    · have hc := countP_applyMiddleware cfg (typeOf op) rec.state
        (candidateOf cfg op rec.state) isPipelineRun (fun _ => rfl)
      simp only [isPipelineRun, if_pos] at hc
      simp [List.countP_append, List.countP_cons, isPipelineRun, hc]
    · simp [List.countP_append, List.countP_cons, isCommit,
        countP_applyMiddleware_zero cfg (typeOf op) rec.state
          (candidateOf cfg op rec.state) isCommit (fun _ => rfl) rfl]
    · simp [List.countP_append, List.countP_cons, isInvalidate,
        countP_applyMiddleware_zero cfg (typeOf op) rec.state
          (candidateOf cfg op rec.state) isInvalidate (fun _ => rfl) rfl]
    · simp [List.countP_append, List.countP_cons, isLifecycle,
        countP_applyMiddleware_zero cfg (typeOf op) rec.state
          (candidateOf cfg op rec.state) isLifecycle (fun _ => rfl) rfl]
  · intro hs
    rw [runOp_eq]
    exact commitPhase_request_no_write _ hs

/-- Witness for C6: a successful `set` on the concrete persistent store
writes once, in the stated position; a request-scope store with an adapter
still performs zero writes. -/
theorem c6_adapter_write_witness :
    (∃ t1 t2 : List (Event Nat),
        (runOp cfgPersist (StoreOp.set 5) (freshRecord cfgPersist)).trace =
            t1 ++ Event.adapterWrite
              ((runOp cfgPersist (StoreOp.set 5) (freshRecord cfgPersist)).record.state) ::
                t2 ∧
          t1.countP isAdapterWrite = 0 ∧ t2.countP isAdapterWrite = 0 ∧
          t1.countP isPipelineRun = 1 ∧ t1.countP isCommit = 1 ∧
          t1.countP isInvalidate = 1 ∧ t1.countP isLifecycle = 0 ∧
          t2 = lifecycleEvents cfgPersist (typeOf (StoreOp.set 5)) 0
            ((runOp cfgPersist (StoreOp.set 5) (freshRecord cfgPersist)).record.state)) ∧
      ((runOp cfgRequestAd (StoreOp.set 5) (freshRecord cfgRequestAd)).trace).countP
        isAdapterWrite = 0 := by
  constructor
  · exact (c6_adapter_write cfgPersist (StoreOp.set 5)
      (freshRecord cfgPersist)).1 adStored rfl rfl rfl
  · exact (c6_adapter_write cfgRequestAd (StoreOp.set 5)
      (freshRecord cfgRequestAd)).2 rfl

/-- C7: when `adapter.write` throws during a mutating operation whose
pipeline succeeded, the error propagates to the caller while the in-memory
record retains the committed post-middleware state; a subsequent `read()`
serves that state (exactly that state, with no derived keys, when no derive
function is configured). -/
theorem c7_write_failure_no_rollback {σ δ : Type} [DecidableEq σ]
    (cfg : StoreConfig σ δ) (op : StoreOp σ) (rec : Record σ δ)
    (ad : Adapter σ) (e : Thrown) (fs : σ)
    (hs : cfg.storage = StorageMode.persistent) (ha : cfg.adapter = some ad)
    (hm : (applyMiddleware cfg (typeOf op) rec.state
        (candidateOf cfg op rec.state)).2 = Except.ok fs)
    (hw : ad.write fs = Except.error e) :
    (runOp cfg op rec).error = some e ∧
    (runOp cfg op rec).record.state = fs ∧
    (read cfg (runOp cfg op rec).record).1.base = fs ∧
    (cfg.derive = none → (read cfg (runOp cfg op rec).record).1 = ⟨fs, none⟩) := by
  have hwt : (writeToAdapter cfg fs).2 = Except.error e := by
    rw [writeToAdapter_persistent cfg ad hs ha fs]
    exact hw
  rw [runOp_eq, commitPhase_mwOk _ hm, commitOk_writeError _ _ hwt]
  refine ⟨rfl, rfl, ?_, ?_⟩
  · rw [read_base]
  · intro hd
    rw [read_def, computeDerived_noDerive hd]

/-- Witness for C7: on the persistent store whose adapter write throws, a
`set(5)` propagates the thrown value, the record keeps `5`, and `read()`
serves `5` with no derived keys. -/
theorem c7_write_failure_no_rollback_witness :
    (runOp cfgPersistBad (StoreOp.set 5) (freshRecord cfgPersistBad)).error =
        some boomThrown ∧
      (runOp cfgPersistBad (StoreOp.set 5) (freshRecord cfgPersistBad)).record.state = 5 ∧
      (read cfgPersistBad
          (runOp cfgPersistBad (StoreOp.set 5) (freshRecord cfgPersistBad)).record).1 =
        ⟨5, none⟩ := by
  have h := c7_write_failure_no_rollback cfgPersistBad (StoreOp.set 5)
    (freshRecord cfgPersistBad) adBadWrite boomThrown 5 rfl rfl rfl rfl
  exact ⟨h.1, h.2.1, h.2.2.2 rfl⟩

/-- C4: when the configured derive function throws on the current base
state, `read()` (and `select()`) does not propagate the exception: it
returns the base state unmerged (no derived keys), the configured `onError`
is invoked exactly once with the normalized `Error` and context
`{method: "derive", state: baseState}`, and the record is left unchanged. -/
theorem c4_derive_error_contained {σ δ R : Type} [DecidableEq σ]
    (cfg : StoreConfig σ δ) (deriveFn : σ → Except Thrown δ) (rec : Record σ δ)
    (th : Thrown) (sel : FullState σ δ → R)
    (hd : cfg.derive = some deriveFn)
    (hl : rec.lastDerivedBaseState = none)
    (hthrow : deriveFn rec.state = Except.error th)
    (hcb : cfg.onErrorConfigured = true) :
    read cfg rec =
      (⟨rec.state, none⟩, rec,
       [Event.deriveCall rec.state,
        Event.onError (normalizeThrown th) deriveMethodName rec.state]) ∧
    ((read cfg rec).2.2).countP isOnErrorEvent = 1 ∧
    (read cfg rec).2.1 = rec ∧
    select cfg sel rec =
      (sel ⟨rec.state, none⟩, rec,
       [Event.deriveCall rec.state,
        Event.onError (normalizeThrown th) deriveMethodName rec.state]) := by
  have h1 : read cfg rec =
      (⟨rec.state, none⟩, rec,
       [Event.deriveCall rec.state,
        Event.onError (normalizeThrown th) deriveMethodName rec.state]) := by
    rw [read_def, computeDerived_missEmpty rec.state rec hd hl,
      deriveFresh_error cfg rec hthrow, hcb]
    simp
  refine ⟨h1, ?_, by rw [h1], ?_⟩
  · rw [h1]
    simp [List.countP_cons, isOnErrorEvent]
  · simp [select, h1]

/-- Witness for C4: the derive-throws-on-zero store, read at `{value: 0}`
(standing for the spec's `{value: null}`): base served unmerged, one
`onError` with the normalized error. -/
theorem c4_derive_error_contained_witness :
    read cfgDerive (freshRecord cfgDerive) =
      (⟨0, none⟩, freshRecord cfgDerive,
       [Event.deriveCall 0, Event.onError ⟨boomMsg⟩ deriveMethodName 0]) ∧
      select cfgDerive baseSelector (freshRecord cfgDerive) =
        (0, freshRecord cfgDerive,
         [Event.deriveCall 0, Event.onError ⟨boomMsg⟩ deriveMethodName 0]) := by
  have h := c4_derive_error_contained cfgDerive deriveThrowOnZero
    (freshRecord cfgDerive) boomThrown baseSelector rfl rfl rfl rfl
  exact ⟨h.1, h.2.2.2⟩

/-- C10: a derive failure is never memoized.  On a record with empty memo
fields (the state every fresh record and every successful mutation produce),
a read whose derive throws leaves the record — including both memo fields —
unchanged and empty, so an immediately repeated read behaves identically
(derive invoked again, `onError` invoked again); when derive succeeds
instead, its result is cached and the repeated read serves the cache with no
further derive invocation. -/
theorem c10_derive_failure_not_memoized {σ δ : Type} [DecidableEq σ]
    (cfg : StoreConfig σ δ) (deriveFn : σ → Except Thrown δ) (rec : Record σ δ)
    (hd : cfg.derive = some deriveFn)
    (hl : rec.lastDerivedBaseState = none) (hc : rec.cachedDerivedState = none) :
    (∀ th : Thrown, deriveFn rec.state = Except.error th →
       (read cfg rec).2.1 = rec ∧
       ((read cfg rec).2.1).lastDerivedBaseState = none ∧
       ((read cfg rec).2.1).cachedDerivedState = none ∧
       ((read cfg rec).2.2).countP isDeriveCall = 1 ∧
       read cfg ((read cfg rec).2.1) = read cfg rec ∧
       (cfg.onErrorConfigured = true →
         ((read cfg rec).2.2).countP isOnErrorEvent = 1)) ∧
    (∀ d : δ, deriveFn rec.state = Except.ok d →
       (read cfg rec).2.1 =
         { rec with lastDerivedBaseState := some rec.state,
                    cachedDerivedState := some d } ∧
       (read cfg rec).1 = ⟨rec.state, some d⟩ ∧
       read cfg ((read cfg rec).2.1) =
         (⟨rec.state, some d⟩, (read cfg rec).2.1, [])) := by
  constructor
  · intro th hthrow
    have h1 : read cfg rec =
        (⟨rec.state, none⟩, rec,
         Event.deriveCall rec.state ::
           (if cfg.onErrorConfigured then
              [Event.onError (normalizeThrown th) deriveMethodName rec.state]
            else [])) := by
      rw [read_def, computeDerived_missEmpty rec.state rec hd hl,
        deriveFresh_error cfg rec hthrow]
    refine ⟨by rw [h1], by rw [h1]; exact hl, by rw [h1]; exact hc, ?_,
      by rw [h1]; exact h1, ?_⟩
    · rw [h1]
      cases hcb : cfg.onErrorConfigured <;>
        simp [List.countP_cons, isDeriveCall, isOnErrorEvent, hcb]
    · intro hcb
      rw [h1, hcb]
      simp [List.countP_cons, isOnErrorEvent, isDeriveCall]
  · intro d hok
    have h1 : read cfg rec =
        (⟨rec.state, some d⟩,
         { rec with lastDerivedBaseState := some rec.state,
                    cachedDerivedState := some d },
         [Event.deriveCall rec.state]) := by
      rw [read_def, computeDerived_missEmpty rec.state rec hd hl,
        deriveFresh_ok cfg rec hok]
    refine ⟨by rw [h1], by rw [h1], ?_⟩
    rw [h1, read_def]
    exact computeDerived_hit _ hd rfl rfl

/-- Witness for C10: on the derive-throws-on-zero store, the failing read at
state `0` invokes derive once, a repeated read behaves identically, and a
read at state `1` caches the successful result `2`. -/
theorem c10_derive_failure_not_memoized_witness :
    ((read cfgDerive (freshRecord cfgDerive)).2.2).countP isDeriveCall = 1 ∧
      read cfgDerive ((read cfgDerive (freshRecord cfgDerive)).2.1) =
        read cfgDerive (freshRecord cfgDerive) ∧
      (read cfgDerive (⟨1, false, none, none⟩ : Record Nat Nat)).1 = ⟨1, some 2⟩ := by
  have he := (c10_derive_failure_not_memoized cfgDerive deriveThrowOnZero
    (freshRecord cfgDerive) rfl rfl rfl).1 boomThrown rfl
  have ho := (c10_derive_failure_not_memoized cfgDerive deriveThrowOnZero
    (⟨1, false, none, none⟩ : Record Nat Nat) rfl rfl rfl).2 2 rfl
  exact ⟨he.2.2.2.1, he.2.2.2.2.1, ho.2.1⟩

/-- C5 (amended): repeated reads with no intervening mutation invoke derive
at most once PROVIDED the first read's derive succeeded (or derive is not
configured, or the memoized value was reused) — a failing derive is not
memoized and is retried on every read; every successful mutating operation
resets `lastDerivedBaseState` and `cachedDerivedState` before the next read;
consequently the first read after a mutation computes its derived portion
freshly from the current base state (never serving stale derived data), and
derive runs at most once per distinct base-state reference between
consecutive mutations — not at most once per distinct value globally, since
recommitting a reference-identical state triggers a fresh derive call. -/
theorem c5_memoization {σ δ : Type} [DecidableEq σ] (cfg : StoreConfig σ δ) :
    (∀ rec : Record σ δ,
       (rec.lastDerivedBaseState = none ↔ rec.cachedDerivedState = none) →
       (cfg.derive = none ∨
          ((read cfg rec).2.1).lastDerivedBaseState = some rec.state) →
       read cfg ((read cfg rec).2.1) =
         ((read cfg rec).1, (read cfg rec).2.1, [])) ∧
    (∀ (op : StoreOp σ) (rec : Record σ δ), (runOp cfg op rec).error = none →
       ((runOp cfg op rec).record).lastDerivedBaseState = none ∧
       ((runOp cfg op rec).record).cachedDerivedState = none) ∧
    (∀ rec : Record σ δ, rec.lastDerivedBaseState = none →
       (read cfg rec).1 =
         ⟨rec.state, cfg.derive.bind (fun f => exceptToOption (f rec.state))⟩ ∧
       ((read cfg rec).2.2).countP isDeriveCall =
         (if cfg.derive.isSome then 1 else 0)) := by
  refine ⟨?_, ?_, ?_⟩
  · intro rec hpair hcond
    cases hd : cfg.derive with
    | none =>
      have h1 : read cfg rec = (⟨rec.state, none⟩, rec, []) := by
        rw [read_def, computeDerived_noDerive hd]
      rw [h1]
      exact h1
    | some deriveFn =>
      cases hl : rec.lastDerivedBaseState with
      | none =>
        cases hf : deriveFn rec.state with
        | ok d =>
          have h1 : read cfg rec =
              (⟨rec.state, some d⟩,
               { rec with lastDerivedBaseState := some rec.state,
                          cachedDerivedState := some d },
               [Event.deriveCall rec.state]) := by
            rw [read_def, computeDerived_missEmpty rec.state rec hd hl,
              deriveFresh_ok cfg rec hf]
          rw [h1, read_def]
          exact computeDerived_hit _ hd rfl rfl
        | error th =>
          exfalso
          have h2 : (read cfg rec).2.1 = rec := by
            rw [read_def, computeDerived_missEmpty rec.state rec hd hl,
              deriveFresh_error cfg rec hf]
          rcases hcond with h | h
          · rw [hd] at h
            cases h
          · rw [h2, hl] at h
            cases h
      | some s' =>
        cases hc : rec.cachedDerivedState with
        | none =>
          exfalso
          have := hpair.mpr hc
          rw [hl] at this
          cases this
        | some c =>
          by_cases hss : s' = rec.state
          · subst hss
            have h1 : read cfg rec = (⟨rec.state, some c⟩, rec, []) := by
              rw [read_def]
              exact computeDerived_hit rec hd hl hc
            rw [h1]
            exact h1
          · cases hf : deriveFn rec.state with
            | ok d =>
              have h1 : read cfg rec =
                  (⟨rec.state, some d⟩,
                   { rec with lastDerivedBaseState := some rec.state,
                              cachedDerivedState := some d },
                   [Event.deriveCall rec.state]) := by
                rw [read_def, computeDerived_missOther rec hd hl hss,
                  deriveFresh_ok cfg rec hf]
              rw [h1, read_def]
              exact computeDerived_hit _ hd rfl rfl
            | error th =>
              exfalso
              have h2 : (read cfg rec).2.1 = rec := by
                rw [read_def, computeDerived_missOther rec hd hl hss,
                  deriveFresh_error cfg rec hf]
              rcases hcond with h | h
              · rw [hd] at h
                cases h
              · rw [h2, hl] at h
                exact hss (Option.some.inj h)
  · intro op rec h
    rw [runOp_eq] at h ⊢
    obtain ⟨fs, hm, hw, heq⟩ := commitPhase_none_trace _ h
    rw [heq]
    exact ⟨rfl, rfl⟩
  · intro rec hl
    cases hd : cfg.derive with
    | none =>
      rw [read_def, computeDerived_noDerive hd]
      simp [hd, isDeriveCall]
    | some deriveFn =>
      rw [read_def, computeDerived_missEmpty rec.state rec hd hl]
      cases hf : deriveFn rec.state with
      | ok d =>
        rw [deriveFresh_ok cfg rec hf]
        simp [hd, hf, exceptToOption, List.countP_cons, isDeriveCall]
      | error th =>
        rw [deriveFresh_error cfg rec hf]
        cases hcb : cfg.onErrorConfigured <;>
          simp [hd, hf, exceptToOption, List.countP_cons, isDeriveCall,
            isOnErrorEvent, hcb]

/-- Witness for C5 (amended): on the always-succeeding derive store, the
second read is call-free and identical, a successful `set` empties both memo
fields, and a fresh read serves the freshly derived portion. -/
theorem c5_memoization_witness :
    read cfgDeriveOk ((read cfgDeriveOk (freshRecord cfgDeriveOk)).2.1) =
        ((read cfgDeriveOk (freshRecord cfgDeriveOk)).1,
         (read cfgDeriveOk (freshRecord cfgDeriveOk)).2.1, []) ∧
      ((runOp cfgDeriveOk (StoreOp.set 5) (freshRecord cfgDeriveOk)).record).lastDerivedBaseState =
          none ∧
      (read cfgDeriveOk (freshRecord cfgDeriveOk)).1 = ⟨0, some 0⟩ := by
  have h := c5_memoization cfgDeriveOk
  refine ⟨h.1 (freshRecord cfgDeriveOk) Iff.rfl (Or.inr rfl),
    (h.2.1 (StoreOp.set 5) (freshRecord cfgDeriveOk) rfl).1, ?_⟩
  exact (h.2.2 (freshRecord cfgDeriveOk) rfl).1

/-- C5 is false as stated: with an always-throwing derive, two consecutive
`read()` calls with no intervening mutation invoke derive twice (a failure
is not memoized), contradicting "at most once". -/
theorem c5_claim_false :
    ((read cfgDeriveBoom (freshRecord cfgDeriveBoom)).2.2 ++
        (read cfgDeriveBoom
          ((read cfgDeriveBoom (freshRecord cfgDeriveBoom)).2.1)).2.2).countP
        isDeriveCall = 2 ∧
      ¬(((read cfgDeriveBoom (freshRecord cfgDeriveBoom)).2.2 ++
          (read cfgDeriveBoom
            ((read cfgDeriveBoom (freshRecord cfgDeriveBoom)).2.1)).2.2).countP
          isDeriveCall ≤ 1) := by
  decide

/-- C8 (amended): the adapter is read AT MOST once per process lifetime over
every interleaving of accesses — concurrent async first accesses share the
one in-flight seed, a started seed is never restarted, and any later access
joins or returns the existing record.  The single read happens on the first
async access when no record exists yet; its completion seeds the record with
the stored value and `initialized = true` when one was returned, else with
the initial value.  A synchronous first access, however, seeds the record
from the configured initial value without consulting the adapter — after
which the adapter is never read at all (so "exactly once" does not hold). -/
theorem c8_adapter_read_at_most_once {σ δ : Type} (cfg : StoreConfig σ δ)
    (adapterValue : Option σ) :
    (∀ (evs : List AccessEvent) (st : ModuleState σ δ),
       (runAccesses cfg adapterValue st evs).2 ≤ 1) ∧
    (∀ ad : Adapter σ, cfg.adapter = some ad →
       stepAccess cfg adapterValue (initialModuleState : ModuleState σ δ)
           AccessEvent.asyncAccess = (⟨none, true, true⟩, 1)) ∧
    (stepAccess cfg adapterValue (initialModuleState : ModuleState σ δ)
        AccessEvent.syncAccess = (⟨some (freshRecord cfg), false, false⟩, 0)) ∧
    (∀ st : ModuleState σ δ, st.seedPending = true →
       stepAccess cfg adapterValue st AccessEvent.seedComplete =
         (⟨some (seededRecord cfg adapterValue), st.seedStarted, false⟩, 0)) ∧
    ((seededRecord cfg adapterValue).state = adapterValue.getD cfg.initial ∧
       (seededRecord cfg adapterValue).initialized = adapterValue.isSome) ∧
    (∀ (st : ModuleState σ δ) (e : AccessEvent), st.seedStarted = true →
       (stepAccess cfg adapterValue st e).2 = 0) := by
  refine ⟨runAccesses_le_one cfg adapterValue, ?_, rfl, ?_, ⟨rfl, rfl⟩, ?_⟩
  · intro ad ha
    simp [stepAccess, initialModuleState, ha]
  · intro st hp
    simp [stepAccess, hp]
  · intro st e h
    exact (stepAccess_preserves_started cfg adapterValue st e h).2

/-- Witness for C8 (amended): on the concrete persistent store whose adapter
holds `7`, an async-first interleaving reads once, seeding `7` as
initialized state. -/
theorem c8_adapter_read_at_most_once_witness :
    (runAccesses cfgPersist (some 7) (initialModuleState : ModuleState Nat Nat)
        [AccessEvent.asyncAccess, AccessEvent.seedComplete,
          AccessEvent.asyncAccess]).2 ≤ 1 ∧
      stepAccess cfgPersist (some 7) (initialModuleState : ModuleState Nat Nat)
          AccessEvent.asyncAccess = (⟨none, true, true⟩, 1) ∧
      stepAccess cfgPersist (some 7) (⟨none, true, true⟩ : ModuleState Nat Nat)
          AccessEvent.seedComplete =
        (⟨some (seededRecord cfgPersist (some 7)), true, false⟩, 0) ∧
      (seededRecord cfgPersist (some 7)).state = 7 ∧
      (seededRecord cfgPersist (some 7)).initialized = true := by
  have h := c8_adapter_read_at_most_once cfgPersist (some 7)
  exact ⟨h.1 _ _, h.2.1 adStored rfl, h.2.2.2.1 ⟨none, true, true⟩ rfl,
    h.2.2.2.2.1.1, h.2.2.2.2.1.2⟩

/-- C8 is false as stated: when the first access to the persistent store is
a synchronous `read`/`select`, the record is seeded from the configured
initial value (`0`) even though the adapter holds `7`, zero adapter reads
ever occur (not "exactly once"), and a later async access returns that
record without consulting the adapter. -/
theorem c8_claim_false :
    (runAccesses cfgPersist (some 7) (initialModuleState : ModuleState Nat Nat)
        [AccessEvent.syncAccess, AccessEvent.asyncAccess,
          AccessEvent.seedComplete]).2 = 0 ∧
      (runAccesses cfgPersist (some 7) (initialModuleState : ModuleState Nat Nat)
        [AccessEvent.syncAccess, AccessEvent.asyncAccess,
          AccessEvent.seedComplete]).1.persistentInstance =
        some ⟨0, false, none, none⟩ := by
  decide

end RscState
